import Mathlib

/-!
Shallow embedding of the simulation kernel of `src/game.rs` (a small Bevy game:
rotating cycles, orbiting hands, a baton handed from hand to hand toward a
Finish target).

Modelling conventions:
* `f32` quantities (progress, speed, translations, radii) are modelled as `ℚ`;
  the arithmetic the kernel performs on them is exact on the inputs of the
  claims, so no rounding is modelled.
* An ECS entity is a record of all components the kernel reads or writes;
  `Option`/`Bool` fields model presence or absence of a component.
  `holding = some (some i)` models `Holding(Some(i))`, `holding = some none`
  models `Holding(None)`, `holding = none` models absence of the component.
* Bevy `Commands` are deferred: a system reads the world as it was when the
  system started and its command queue is applied afterwards, in order.  Each
  system is therefore a pure function from the pre-state to the post-state,
  with command batches applied in the source's order.
* The `Update` systems of `GameBundle::build` carry no ordering constraints in
  the source (no `chain`/`before`/`after`), so `tick` fixes one interleaving;
  claims about a single system are stated on that system directly.
* `system_cycle_hand` places a hand at `(cos(2πp)·r, sin(2πp)·r)`.  The cosine
  is transcendental, so the placement system takes the offset function as an
  argument; `handOffset` is the real-valued offset of the source and the
  scenario theorems prove that the rational offset fed to the placement system
  agrees with `handOffset` at the progress values of the scenario.
-/

namespace Jam

/-- Domain events, from `enum GameEvent` in `game.rs`. -/
inductive GameEvent where
  | Drop
  | Grab
  | GrabEmpty
  | HandOver
deriving DecidableEq, Repr

/-- Global game phase, from `enum Game { Playing, Finished }`. -/
inductive Phase where
  | playing
  | finished
deriving DecidableEq, Repr

/-- One ECS entity with every component of the kernel.  A `none`/`false` field
models the absence of that component. -/
structure Entity where
  eid : Nat := 0
  cycle : Bool := false
  hand : Bool := false
  item : Bool := false
  finish : Bool := false
  canHold : Bool := false
  active : Bool := false
  holding : Option (Option Nat) := none
  progress : Option ℚ := none
  speed : Option ℚ := none
  radius : Option ℚ := none
  collision : Option ℚ := none
  parent : Option Nat := none
  translation : ℚ × ℚ × ℚ := (0, 0, 0)
deriving DecidableEq, Repr

/-- The entity store plus the global phase state. -/
structure World where
  entities : List Entity
  phase : Phase
deriving DecidableEq, Repr

/-- Entity lookup by id (a Bevy `Query::get`). -/
def World.find (w : World) (i : Nat) : Option Entity :=
  w.entities.find? (fun e => e.eid == i)

/-- Apply an entity-wise function to the whole store (the effect of a system
that mutates each matched entity in place). -/
def World.mapEntities (w : World) (g : Entity → Entity) : World :=
  { w with entities := w.entities.map g }

/-- Apply a command to the entity with id `j` (a Bevy `commands.entity(j)`
batch). -/
def World.update (w : World) (j : Nat) (f : Entity → Entity) : World :=
  w.mapEntities (fun e => if e.eid = j then f e else e)

/-- `f32::signum` of the source: `1` for nonnegative input, `-1` for negative
input (the `-0.0` case of `f32` does not arise over `ℚ`). -/
def fsign (q : ℚ) : ℚ := if q < 0 then -1 else 1

/-- `f32::trunc` of the source: round toward zero. -/
def qtrunc (q : ℚ) : ℚ := if q < 0 then ((⌈q⌉ : ℤ) : ℚ) else ((⌊q⌋ : ℤ) : ℚ)

/-- `Vec3::lerp` componentwise: `a + (b - a) * t`. -/
def lerpQ (a b t : ℚ) : ℚ := a + (b - a) * t

/-- World translation of an entity: its local translation plus the world
translation of its parent (Bevy transform propagation; the hierarchy of the
game is at most cycle → hand → item deep, so fuel 4 is exact). -/
def worldPosAux (w : World) : Nat → Entity → ℚ × ℚ × ℚ
  | 0, e => e.translation
  | Nat.succ n, e =>
    match e.parent with
    | none => e.translation
    | some pid =>
      match w.find pid with
      | none => e.translation
      | some pe => worldPosAux w n pe + e.translation

/-- World translation of an entity (see `worldPosAux`). -/
def worldPos (w : World) (e : Entity) : ℚ × ℚ × ℚ := worldPosAux w 4 e

/-- `Overlap::with` of the source: all second components of stored pairs whose
first component is `e`. -/
def overlapWith (ov : List (Nat × Nat)) (e : Nat) : List Nat :=
  ov.filterMap (fun p => if p.1 = e then some p.2 else none)

/-- Squared distance of the `xy` projections of two translations. -/
def distSq2 (a b : ℚ × ℚ × ℚ) : ℚ := (a.1 - b.1) ^ 2 + (a.2.1 - b.2.1) ^ 2

/-- `BoundingCircle::intersects` for two circles at world centers `p1`, `p2`
with radii `r1`, `r2`: squared center distance at most squared radius sum. -/
def circlesIntersect (p1 : ℚ × ℚ × ℚ) (r1 : ℚ) (p2 : ℚ × ℚ × ℚ) (r2 : ℚ) : Bool :=
  distSq2 p1 p2 ≤ (r1 + r2) ^ 2

/-- `iter_combinations`: all unordered pairs of a list, in iteration order. -/
def pairsOf {α : Type} : List α → List (α × α)
  | [] => []
  | x :: xs => xs.map (fun y => (x, y)) ++ pairsOf xs

/-- `system_check_overlap`: for every unordered pair of `Collision`-bearing
entities whose world-space circles intersect, push both `(e1,e2)` and
`(e2,e1)`. -/
def systemCheckOverlap (w : World) : List (Nat × Nat) :=
  let colliders := w.entities.filterMap (fun e =>
    e.collision.map (fun r => (e.eid, worldPos w e, r)))
  (pairsOf colliders).flatMap (fun pq =>
    if circlesIntersect pq.1.2.1 pq.1.2.2 pq.2.2.1 pq.2.2.2 then
      [(pq.1.1, pq.2.1), (pq.2.1, pq.1.1)]
    else [])

/-- The `active` query of `system_grab_toggle`:
`(Entity, &Speed, Option<&Holding>)` with `(With<CanHold>, With<Active>)`,
read through `get_single` (exactly one match, else `None`). -/
def getSingleActive (w : World) : Option Entity :=
  match w.entities.filter (fun e => e.canHold && e.active && e.speed.isSome) with
  | [e] => some e
  | _ => none

/-- The receiver search of the hand-over branch:
`overlaps.into_iter().find_map(|e| hand_overs.get(e).ok())` where the
`hand_overs` query is `(With<CanHold>, Without<Active>)`. -/
def firstReceiver (w : World) (ov : List (Nat × Nat)) (aid : Nat) : Option Entity :=
  (overlapWith ov aid).findSome? (fun i =>
    match w.find i with
    | some e => if e.canHold && !e.active then some e else none
    | none => none)

/-- The item search of the empty-hand branch:
`overlap.with(entity).into_iter().find(|e| items.get_mut(*e).is_ok())` where
the `items` query requires `Item` (every entity bears a `Transform`). -/
def firstItem (w : World) (ov : List (Nat × Nat)) (aid : Nat) : Option Nat :=
  (overlapWith ov aid).find? (fun i =>
    match w.find i with
    | some e => e.item
    | none => false)

/-- Command batch on the receiver of a hand-over: insert `Holding(Some(item))`
and `Active`; if the receiver had a `Speed` (read from the query snapshot
`oSpeed`), insert `Speed(|s_O| * -s_A.signum())`, else insert nothing. -/
def recvUpdate (item : Nat) (oSpeed : Option ℚ) (s : ℚ) (e : Entity) : Entity :=
  { e with holding := some (some item), active := true,
           speed := match oSpeed with
                    | some so => some (abs so * -(fsign s))
                    | none => e.speed }

/-- Command batch on the old active entity of a hand-over: remove `Active`
and `Holding`. -/
def deactivateUpdate (e : Entity) : Entity := { e with active := false, holding := none }

/-- Command batch removing the `Holding` component. -/
def dropHoldingUpdate (e : Entity) : Entity := { e with holding := none }

/-- Command batch inserting a `Holding` component with the given payload. -/
def setHoldingUpdate (v : Option Nat) (e : Entity) : Entity := { e with holding := some v }

/-- Command batch setting a parent link and a new local translation. -/
def reparentUpdate (pid : Option Nat) (t : ℚ × ℚ × ℚ) (e : Entity) : Entity :=
  { e with parent := pid, translation := t }

/-- `EntityCommands::set_parent_in_place`: reparent `child` under `parentId`,
preserving its world translation by recomputing the local translation relative
to the new parent (rotations and scales are identity throughout the game). -/
def setParentInPlace (w : World) (child parentId : Nat) : World :=
  match w.find child, w.find parentId with
  | some ce, some pe =>
    w.update child (reparentUpdate (some parentId) (worldPos w ce - worldPos w pe))
  | _, _ => w

/-- `EntityCommands::remove_parent_in_place`: unparent `child`, keeping it at
its last world translation. -/
def removeParentInPlace (w : World) (child : Nat) : World :=
  match w.find child with
  | some ce => w.update child (reparentUpdate none (worldPos w ce))
  | none => w

/-- `system_grab_toggle`: on a rising edge of the Grab action, the three-case
state machine on the unique Active CanHold entity.  Returns the post-command
world and the emitted events. -/
def systemGrabToggle (ov : List (Nat × Nat)) (grabEdge : Bool) (w : World) :
    World × List GameEvent :=
  if grabEdge then
    match getSingleActive w with
    | some a =>
      match a.holding with
      | some (some item) =>
        match firstReceiver w ov a.eid with
        | some o =>
          let w1 := w.update o.eid (recvUpdate item o.speed (a.speed.getD 0))
          let w2 := setParentInPlace w1 item o.eid
          let w3 := w2.update a.eid deactivateUpdate
          (w3, [GameEvent.HandOver])
        | none =>
          let w1 := removeParentInPlace w item
          let w2 := w1.update a.eid dropHoldingUpdate
          (w2, [GameEvent.Drop])
      | some none => (w.update a.eid dropHoldingUpdate, [])
      | none =>
        match firstItem w ov a.eid with
        | some item =>
          let w1 := setParentInPlace w item a.eid
          let w2 := w1.update a.eid (setHoldingUpdate (some item))
          (w2, [GameEvent.Grab])
        | none => (w.update a.eid (setHoldingUpdate none), [GameEvent.GrabEmpty])
    | none => (w, [])
  else (w, [])

/-- Per-tick progress increment of `system_progress`: `dt * s` when holding an
item, `dt * 0.5 * s.signum()` otherwise (no `Holding`, or `Holding(None)`). -/
def progressDelta (dt : ℚ) (holding : Option (Option Nat)) (s : ℚ) : ℚ :=
  match holding with
  | some (some _) => dt * s
  | _ => dt * (1 / 2) * fsign s

/-- The wrap of `system_progress`:
`if progress.0 > 1. { progress.0 = progress.0 - progress.0.trunc(); }`. -/
def progressWrap (p : ℚ) : ℚ := if p > 1 then p - qtrunc p else p

/-- Entity-wise effect of `system_progress` (query:
`(&mut Progress, &Speed, Option<&Holding>)` with `With<Active>`). -/
def progressEntity (dt : ℚ) (e : Entity) : Entity :=
  if e.active then
    match e.progress, e.speed with
    | some p, some s =>
      { e with progress := some (progressWrap (p + progressDelta dt e.holding s)) }
    | _, _ => e
  else e

/-- `system_progress`: advance the progress of every Active entity bearing
`Progress` and `Speed`. -/
def systemProgress (dt : ℚ) (w : World) : World :=
  w.mapEntities (progressEntity dt)

/-- `system_cycle_hand`, parametric in the angular offset function `off`
(meant as `off p r = (cos(2πp)·r, sin(2πp)·r)`, see `handOffset`): every Hand
child of a Cycle with a radius gets its local `x`,`y` set to the offset of its
progress, `z` preserved. -/
def systemCycleHand (off : ℚ → ℚ → ℚ × ℚ) (w : World) : World :=
  w.mapEntities (fun e =>
    match e.parent with
    | none => e
    | some pid =>
      match w.find pid with
      | none => e
      | some pe =>
        if pe.cycle then
          match pe.radius, e.progress with
          | some r, some p =>
            if e.hand then
              { e with translation := ((off p r).1, (off p r).2, e.translation.2.2) }
            else e
          | _, _ => e
        else e)

/-- The exact hand offset of `system_cycle_hand` in the source:
`(angle.cos(), angle.sin()) * radius` with `angle = progress * 2π`. -/
noncomputable def handOffset (p r : ℝ) : ℝ × ℝ :=
  (Real.cos (p * 2 * Real.pi) * r, Real.sin (p * 2 * Real.pi) * r)

/-- The `Holding` query of `system_lerp_item_to_holding`, read through
`get_single`: the unique entity bearing any `Holding`. -/
def getSingleHolding (w : World) : Option Entity :=
  match w.entities.filter (fun e => e.holding.isSome) with
  | [e] => some e
  | _ => none

/-- The per-entity effect of `system_lerp_item_to_holding` on the held item:
`transform.translation.lerp(Vec2::ZERO.extend(z), 0.03)`; the `items` query
requires the `Item` component. -/
def lerpItemUpdate (e : Entity) : Entity :=
  if e.item then
    { e with translation :=
        (lerpQ e.translation.1 0 (3 / 100),
         lerpQ e.translation.2.1 0 (3 / 100),
         lerpQ e.translation.2.2 e.translation.2.2 (3 / 100)) }
  else e

/-- `system_lerp_item_to_holding`: when the unique `Holding` is
`Holding(Some(item))` and `item` bears `Item`, lerp the item's local
translation toward `Vec2::ZERO.extend(z)` by factor `0.03`. -/
def systemLerpItem (w : World) : World :=
  match getSingleHolding w with
  | some h =>
    match h.holding with
    | some (some item) => w.update item lerpItemUpdate
    | _ => w
  | none => w

/-- Whether entity `i` bears `Active` in `w` (used by the `on_finish`
observer model). -/
def wasActive (w : World) (i : Nat) : Bool :=
  match w.find i with
  | some e => e.active
  | none => false

/-- The `on_finish` observer (`Trigger<OnAdd, Active>` + `NextState`): if an
entity bearing `Finish` just gained `Active`, the next phase is `Finished`. -/
def onFinishPhase (wOld wNew : World) : Phase :=
  if wNew.entities.any (fun e => e.finish && e.active && !(wasActive wOld e.eid)) then
    Phase.finished
  else wOld.phase

/-- Input of one tick: the frame delta and the Grab rising edge. -/
structure TickInput where
  dt : ℚ
  grabEdge : Bool

/-- One tick of the kernel.  `system_check_overlap` runs in `PreUpdate`;
`system_cycle_hand`, `system_progress` and `system_grab_toggle` run in
`Update` gated on `in_state(Game::Playing)`; `system_lerp_item_to_holding`
runs in `Update` ungated; the `on_finish` observer fires on `Active`
additions and its `NextState` is applied at the end of the frame.  The
`Update` systems have no ordering constraints in the source, so one
interleaving is fixed here. -/
def tick (off : ℚ → ℚ → ℚ × ℚ) (inp : TickInput) (w : World) : World × List GameEvent :=
  let ov := systemCheckOverlap w
  match w.phase with
  | Phase.playing =>
    let gr := systemGrabToggle ov inp.grabEdge w
    let w2 := systemProgress inp.dt gr.1
    let w3 := systemCycleHand off w2
    let w4 := systemLerpItem w3
    ({ w4 with phase := onFinishPhase w gr.1 }, gr.2)
  | Phase.finished => (systemLerpItem w, [])

/-- `RADIUS_CYCLE` of the source. -/
def radiusCycle : ℚ := 192

/-- `SPACING_CYCLE` of the source. -/
def spacingCycle : ℚ := 64

/-- The placement conversion factor of `system_setup_entities`:
`RADIUS_CYCLE * 2. + SPACING_CYCLE = 448`. -/
def conversion : ℚ := radiusCycle * 2 + spacingCycle

/-- The placement list entries of `system_setup_entities` (`enum Place`). -/
inductive Place where
  | cycle : ℚ → ℚ → ℚ → Place
  | cycleStart : ℚ → ℚ → ℚ → Place
  | baton : ℚ → ℚ → Place
  | fin : ℚ → ℚ → Place

/-- The static placement list of `system_setup_entities`. -/
def places : List Place :=
  [Place.baton (-(1 / 2)) 0,
   Place.cycleStart 0 0 (1 / 2),
   Place.cycle 1 0 1,
   Place.cycle 2 0 (3 / 2),
   Place.cycle 3 0 2,
   Place.fin (7 / 2) 0]

/-- A spawned Cycle: `CycleBundle` translated to `position * conversion`
(z = 0). -/
def cycleEntity (n : Nat) (x y : ℚ) : Entity :=
  { eid := n, cycle := true, radius := some radiusCycle,
    translation := (x * conversion, y * conversion, 0) }

/-- A spawned Hand child of cycle `pid`: `HandBundle` (progress `0.5`,
collision circle `64`, local translation `(0,0,2)`, `CanHold`) plus the
inserted `Speed`; `Active` when spawned by a `CycleStart`. -/
def handEntity (n pid : Nat) (s : ℚ) (act : Bool) : Entity :=
  { eid := n, hand := true, canHold := true, active := act,
    progress := some (1 / 2), speed := some s, collision := some 64,
    parent := some pid, translation := (0, 0, 2) }

/-- The spawned Baton: `Item`, collision circle `40`, translation
`position.extend(1.) * conversion` (so `z = conversion`). -/
def batonEntity (n : Nat) (x y : ℚ) : Entity :=
  { eid := n, item := true, collision := some 40,
    translation := (x * conversion, y * conversion, conversion) }

/-- The spawned Finish: `Finish`, collision circle `64`, `Speed(0.)`,
`CanHold`, translation `position.extend(1.) * conversion`. -/
def finishEntity (n : Nat) (x y : ℚ) : Entity :=
  { eid := n, finish := true, canHold := true, speed := some 0,
    collision := some 64,
    translation := (x * conversion, y * conversion, conversion) }

/-- The entities spawned by one placement entry, at the next free ids. -/
def spawnPlace (n : Nat) : Place → List Entity
  | Place.cycle x y s => [cycleEntity n x y, handEntity (n + 1) n s false]
  | Place.cycleStart x y s => [cycleEntity n x y, handEntity (n + 1) n s true]
  | Place.baton x y => [batonEntity n x y]
  | Place.fin x y => [finishEntity n x y]

/-- Spawn the whole placement list in order, assigning consecutive ids. -/
def buildEntities : Nat → List Place → List Entity
  | _, [] => []
  | n, p :: ps =>
    let es := spawnPlace n p
    es ++ buildEntities (n + es.length) ps

/-- The world right after `system_setup_entities`, in phase `Playing`
(`insert_state(Game::Playing)`). -/
def initialWorld : World :=
  { entities := buildEntities 0 places, phase := Phase.playing }

/-- The rational image of the placement offset when every hand sits at
progress `1/2`: `(cos π · r, sin π · r) = (-r, 0)`.  The scenario theorems
prove the agreement with `handOffset` at `p = 1/2`. -/
def offHalf (_p r : ℚ) : ℚ × ℚ := (-r, 0)

/-- `initialWorld` after one run of the placement resolver, with every hand
(progress `1/2`) placed at local `(-192, 0)` on its cycle. -/
def placedWorld : World := systemCycleHand offHalf initialWorld

/-! ### Small concrete worlds used to instantiate the theorems -/

/-- An active hand on cycle `1` carrying the baton (entity `0`). -/
def aC1 : Entity := { handEntity 2 1 (1 / 2) true with holding := some (some 0) }

/-- A neighboring inactive hand on cycle `3`. -/
def oC1 : Entity := handEntity 4 3 1 false

/-- The carried baton, parented to the active hand. -/
def ieC1 : Entity :=
  { eid := 0, item := true, collision := some 40, parent := some 2,
    translation := (30, 0, -1) }

/-- Hand-over scenario: active hand `2` carries baton `0` and overlaps the
inactive hand `4`. -/
def wC1 : World :=
  { entities := [ieC1, cycleEntity 1 0 0, aC1, cycleEntity 3 1 0, oC1],
    phase := Phase.playing }

/-- Overlap pairs for `wC1`: the two hands touch, the baton touches its
carrier. -/
def ovC1 : List (Nat × Nat) := [(2, 4), (4, 2), (2, 0), (0, 2)]

/-- An active empty hand (no `Holding` component). -/
def aC8 : Entity := handEntity 2 1 (1 / 2) true

/-- Empty-grab scenario: a single active hand with nothing in its overlap
set. -/
def wC8 : World :=
  { entities := [cycleEntity 1 0 0, aC8], phase := Phase.playing }

/-- A world with two Active CanHold entities (a violated precondition). -/
def wTwoActive : World :=
  { entities := [handEntity 0 10 1 true, handEntity 1 11 1 true],
    phase := Phase.playing }

/-- An active entity with negative speed carrying an item: its progress
integrates downward. -/
def wNegSpeed : World :=
  { entities := [{ eid := 0, canHold := true, active := true,
                   holding := some (some 5), progress := some 0,
                   speed := some (-1) }],
    phase := Phase.playing }

/-- An active entity whose progress lands exactly on `1` after one step. -/
def wOneExactly : World :=
  { entities := [{ eid := 0, canHold := true, active := true,
                   holding := some (some 5), progress := some (1 / 2),
                   speed := some 1 }],
    phase := Phase.playing }

/-- The Finish receiver used by the finish-transfer scenario, placed within
reach of the active hand of `wC1`-style geometry. -/
def finC6 : Entity :=
  { eid := 9, finish := true, canHold := true, speed := some 0,
    collision := some 64, translation := (-240, 0, 448) }

/-- The active hand of the finish-transfer scenario, placed at `(-192, 0)` on
its cycle and carrying the baton. -/
def aC6 : Entity :=
  { handEntity 2 1 (1 / 2) true with holding := some (some 0),
                                     translation := (-192, 0, 2) }

/-- The carried baton of the finish-transfer scenario. -/
def ieC6 : Entity :=
  { eid := 0, item := true, collision := some 40, parent := some 2,
    translation := (0, 0, -1) }

/-- Finish-transfer scenario: the active hand carries the baton and its
collision circle overlaps the Finish entity. -/
def wC6 : World :=
  { entities := [ieC6, cycleEntity 1 0 0, aC6, finC6], phase := Phase.playing }

/-- A finished-phase world whose unique `Holding` carries the baton (used for
the post-finish settling claims). -/
def wC10 : World :=
  { entities := [{ eid := 0, item := true, collision := some 40,
                   parent := some 9, translation := (40, 20, -446) },
                 { finC6 with holding := some (some 0), active := true }],
    phase := Phase.finished }

/-! ### Lookup lemmas for the entity store -/

/-- A successful lookup returns an entity with the looked-up id. -/
theorem World.eid_of_find {w : World} {i : Nat} {e : Entity} (h : w.find i = some e) :
    e.eid = i := by
  unfold World.find at h
  simpa using List.find?_some h

/-- A successful lookup returns a member of the store. -/
theorem World.mem_of_find {w : World} {i : Nat} {e : Entity} (h : w.find i = some e) :
    e ∈ w.entities := by
  unfold World.find at h
  exact List.mem_of_find?_eq_some h

/-- Lookup commutes with an entity-wise map that preserves ids. -/
theorem World.find_mapEntities (w : World) (g : Entity → Entity)
    (hg : ∀ e, (g e).eid = e.eid) (i : Nat) :
    (w.mapEntities g).find i = (w.find i).map g := by
  unfold World.find World.mapEntities
  have hp : ((fun e => e.eid == i) ∘ g) = (fun e : Entity => e.eid == i) :=
    funext fun e => by simp [Function.comp, hg]
  rw [List.find?_map, hp]

/-- Lookup after a single-entity command batch. -/
theorem World.find_update (w : World) (j : Nat) (f : Entity → Entity)
    (hf : ∀ e, (f e).eid = e.eid) (i : Nat) :
    (w.update j f).find i = (w.find i).map (fun e => if e.eid = j then f e else e) := by
  unfold World.update
  exact World.find_mapEntities w _ (fun e => by by_cases h : e.eid = j <;> simp [h, hf]) i

/-- A command batch on `j` rewrites the entity found at `j`. -/
theorem World.find_update_self {w : World} {j : Nat} {e : Entity} (f : Entity → Entity)
    (hf : ∀ e, (f e).eid = e.eid) (h : w.find j = some e) :
    (w.update j f).find j = some (f e) := by
  rw [World.find_update w j f hf, h]
  simp [World.eid_of_find h]

/-- A command batch on `j` leaves every other lookup unchanged. -/
theorem World.find_update_ne {w : World} (j : Nat) (f : Entity → Entity)
    (hf : ∀ e, (f e).eid = e.eid) {i : Nat} (hij : i ≠ j) :
    (w.update j f).find i = w.find i := by
  rw [World.find_update w j f hf]
  cases h : w.find i with
  | none => rfl
  | some e => simp [World.eid_of_find h, hij]

/-- An entity whose id differs from a command batch's target survives the
batch unchanged as a member of the store. -/
theorem World.mem_update_of_ne {w : World} {x : Entity} (hx : x ∈ w.entities)
    (j : Nat) (f : Entity → Entity) (hne : x.eid ≠ j) :
    x ∈ (w.update j f).entities := by
  unfold World.update World.mapEntities
  have hm := List.mem_map_of_mem (fun e => if e.eid = j then f e else e) hx
  simpa [hne] using hm

/-- The image of a member under a command batch targeting its id is a member
of the updated store. -/
theorem World.mem_update_self {w : World} {x : Entity} (hx : x ∈ w.entities)
    (f : Entity → Entity) : f x ∈ (w.update x.eid f).entities := by
  unfold World.update World.mapEntities
  have hm := List.mem_map_of_mem (fun e => if e.eid = x.eid then f e else e) hx
  simpa using hm

/-- `recvUpdate` preserves the entity id. -/
theorem recvUpdate_eid (item : Nat) (oSpeed : Option ℚ) (s : ℚ) :
    ∀ e, (recvUpdate item oSpeed s e).eid = e.eid := fun _ => rfl

/-- `deactivateUpdate` preserves the entity id. -/
theorem deactivateUpdate_eid : ∀ e, (deactivateUpdate e).eid = e.eid := fun _ => rfl

/-- `dropHoldingUpdate` preserves the entity id. -/
theorem dropHoldingUpdate_eid : ∀ e, (dropHoldingUpdate e).eid = e.eid := fun _ => rfl

/-- `setHoldingUpdate` preserves the entity id. -/
theorem setHoldingUpdate_eid (v : Option Nat) :
    ∀ e, (setHoldingUpdate v e).eid = e.eid := fun _ => rfl

/-- `reparentUpdate` preserves the entity id. -/
theorem reparentUpdate_eid (pid : Option Nat) (t : ℚ × ℚ × ℚ) :
    ∀ e, (reparentUpdate pid t e).eid = e.eid := fun _ => rfl

/-- The entity-wise effect of the progress integrator preserves the id. -/
theorem progressEntity_eid (dt : ℚ) : ∀ e, (progressEntity dt e).eid = e.eid := by
  intro e
  unfold progressEntity
  by_cases h : e.active <;> simp [h]
  cases e.progress <;> cases e.speed <;> rfl

/-- A filtered `get_single`-style selection commutes with an entity-wise map
that preserves the filter's predicate. -/
theorem getSingleActive_mapEntities (w : World) (g : Entity → Entity)
    (hg : ∀ e, ((g e).canHold && (g e).active && (g e).speed.isSome) =
      (e.canHold && e.active && e.speed.isSome)) :
    getSingleActive (w.mapEntities g) = (getSingleActive w).map g := by
  unfold getSingleActive World.mapEntities
  rw [List.filter_map]
  have hp : ((fun e => e.canHold && e.active && e.speed.isSome) ∘ g) =
      (fun e => e.canHold && e.active && e.speed.isSome) := funext hg
  rw [hp]
  cases h : List.filter (fun e => e.canHold && e.active && e.speed.isSome) w.entities with
  | nil => rfl
  | cons a t =>
    cases t with
    | nil => rfl
    | cons b t2 => rfl

/-- The active `get_single` after a command batch that does not touch
`CanHold`, `Active` or `Speed`. -/
theorem getSingleActive_update (w : World) (j : Nat) (f : Entity → Entity)
    (hf : ∀ e, (f e).canHold = e.canHold ∧ (f e).active = e.active ∧ (f e).speed = e.speed) :
    getSingleActive (w.update j f) =
      (getSingleActive w).map (fun e => if e.eid = j then f e else e) := by
  unfold World.update
  refine getSingleActive_mapEntities w _ (fun e => ?_)
  by_cases h : e.eid = j <;> simp [h, (hf e).1, (hf e).2.1, (hf e).2.2]

/-- The world translation of a parentless entity is its local translation. -/
theorem worldPos_parent_none (w : World) (e : Entity) (h : e.parent = none) :
    worldPos w e = e.translation := by
  show worldPosAux w (Nat.succ 3) e = e.translation
  unfold worldPosAux
  rw [h]

/-! ### C1: hand-over transfers item, Active and parent, emitting one event -/

/-- Claim C1: on a Grab rising edge with the unique Active entity `a` holding
item `i`, if the first overlapping CanHold non-Active entity is `o`, then
after the tick `o` bears `Holding(Some i)` and `Active`, `i`'s parent is `o`,
`a` bears neither `Active` nor `Holding`, exactly one `HandOver` event is
emitted, and no other entity changes — so Active is transferred exactly once
and the item's parent moves from `a` to `o` in the same tick. -/
theorem c1_handover_transfer (ov : List (Nat × Nat)) (w : World) (a o ie : Entity) (i : Nat)
    (hA : getSingleActive w = some a)
    (hAF : w.find a.eid = some a)
    (hH : a.holding = some (some i))
    (hR : firstReceiver w ov a.eid = some o)
    (hO : w.find o.eid = some o)
    (hI : w.find i = some ie)
    (hIP : ie.parent = some a.eid)
    (hOA : o.eid ≠ a.eid) (hIA : i ≠ a.eid) (hIneO : i ≠ o.eid) :
    (systemGrabToggle ov true w).2 = [GameEvent.HandOver] ∧
    (∃ oe, (systemGrabToggle ov true w).1.find o.eid = some oe ∧
      oe.holding = some (some i) ∧ oe.active = true) ∧
    (∃ ie2, (systemGrabToggle ov true w).1.find i = some ie2 ∧ ie2.parent = some o.eid) ∧
    (∃ ae, (systemGrabToggle ov true w).1.find a.eid = some ae ∧
      ae.active = false ∧ ae.holding = none) ∧
    (∀ j, j ≠ o.eid → j ≠ i → j ≠ a.eid →
      (systemGrabToggle ov true w).1.find j = w.find j) := by
  have hre := recvUpdate_eid i o.speed (a.speed.getD 0)
  have h1 : (w.update o.eid (recvUpdate i o.speed (a.speed.getD 0))).find i = some ie := by
    rw [World.find_update_ne o.eid _ hre hIneO, hI]
  have h2 : (w.update o.eid (recvUpdate i o.speed (a.speed.getD 0))).find o.eid
      = some (recvUpdate i o.speed (a.speed.getD 0) o) :=
    World.find_update_self _ hre hO
  simp only [systemGrabToggle, if_true, hA, hH, hR, setParentInPlace, h1, h2]
  refine ⟨trivial, ?_, ?_, ?_, ?_⟩
  · refine ⟨recvUpdate i o.speed (a.speed.getD 0) o, ?_, rfl, rfl⟩
    rw [World.find_update_ne a.eid _ deactivateUpdate_eid hOA,
      World.find_update_ne i _ (reparentUpdate_eid _ _) (Ne.symm hIneO), h2]
  · refine ⟨reparentUpdate (some o.eid)
        (worldPos (w.update o.eid (recvUpdate i o.speed (a.speed.getD 0))) ie -
          worldPos (w.update o.eid (recvUpdate i o.speed (a.speed.getD 0)))
            (recvUpdate i o.speed (a.speed.getD 0) o)) ie, ?_, rfl⟩
    rw [World.find_update_ne a.eid _ deactivateUpdate_eid hIA,
      World.find_update_self _ (reparentUpdate_eid _ _) h1]
  · refine ⟨deactivateUpdate a, ?_, rfl, rfl⟩
    rw [World.find_update_self _ deactivateUpdate_eid]
    rw [World.find_update_ne i _ (reparentUpdate_eid _ _) (Ne.symm hIA),
      World.find_update_ne o.eid _ hre (Ne.symm hOA), hAF]
  · intro j hjo hji hja
    rw [World.find_update_ne a.eid _ deactivateUpdate_eid hja,
      World.find_update_ne i _ (reparentUpdate_eid _ _) hji,
      World.find_update_ne o.eid _ hre hjo]

/-- Witness for C1 at the concrete hand-over world `wC1`. -/
theorem c1_handover_transfer_witness :
    (systemGrabToggle ovC1 true wC1).2 = [GameEvent.HandOver] ∧
    (∃ oe, (systemGrabToggle ovC1 true wC1).1.find oC1.eid = some oe ∧
      oe.holding = some (some 0) ∧ oe.active = true) ∧
    (∃ ie2, (systemGrabToggle ovC1 true wC1).1.find 0 = some ie2 ∧
      ie2.parent = some oC1.eid) ∧
    (∃ ae, (systemGrabToggle ovC1 true wC1).1.find aC1.eid = some ae ∧
      ae.active = false ∧ ae.holding = none) ∧
    (∀ j, j ≠ oC1.eid → j ≠ 0 → j ≠ aC1.eid →
      (systemGrabToggle ovC1 true wC1).1.find j = wC1.find j) :=
  c1_handover_transfer ovC1 wC1 aC1 oC1 ieC1 0 rfl rfl rfl rfl rfl rfl rfl
    (by decide) (by decide) (by decide)

/-! ### C7: drop with no receiver unparents the item in place -/

/-- Claim C7: on a Grab rising edge while the Active entity `a` holds item
`i` and no overlapping non-Active CanHold entity exists, the item is
unparented with its world translation preserved, `a`'s Holding component is
removed, a `Drop` event is emitted, and no other entity changes. -/
theorem c7_drop_in_place (ov : List (Nat × Nat)) (w : World) (a ie : Entity) (i : Nat)
    (hA : getSingleActive w = some a)
    (hAF : w.find a.eid = some a)
    (hH : a.holding = some (some i))
    (hR : firstReceiver w ov a.eid = none)
    (hI : w.find i = some ie)
    (hIA : i ≠ a.eid) :
    (systemGrabToggle ov true w).2 = [GameEvent.Drop] ∧
    (∃ ie2, (systemGrabToggle ov true w).1.find i = some ie2 ∧ ie2.parent = none ∧
      ie2.translation = worldPos w ie ∧
      worldPos (systemGrabToggle ov true w).1 ie2 = worldPos w ie) ∧
    (systemGrabToggle ov true w).1.find a.eid = some (dropHoldingUpdate a) ∧
    (∀ j, j ≠ i → j ≠ a.eid → (systemGrabToggle ov true w).1.find j = w.find j) := by
  simp only [systemGrabToggle, if_true, hA, hH, hR, removeParentInPlace, hI]
  refine ⟨trivial, ?_, ?_, ?_⟩
  · refine ⟨reparentUpdate none (worldPos w ie) ie, ?_, rfl, rfl, ?_⟩
    · rw [World.find_update_ne a.eid _ dropHoldingUpdate_eid hIA,
        World.find_update_self _ (reparentUpdate_eid _ _) hI]
    · exact worldPos_parent_none _ _ rfl
  · rw [World.find_update_self _ dropHoldingUpdate_eid]
    rw [World.find_update_ne i _ (reparentUpdate_eid _ _) (Ne.symm hIA), hAF]
  · intro j hji hja
    rw [World.find_update_ne a.eid _ dropHoldingUpdate_eid hja,
      World.find_update_ne i _ (reparentUpdate_eid _ _) hji]

/-- Witness for C7 at `wC1` with an empty overlap index. -/
theorem c7_drop_in_place_witness :
    (systemGrabToggle [] true wC1).2 = [GameEvent.Drop] ∧
    (∃ ie2, (systemGrabToggle [] true wC1).1.find 0 = some ie2 ∧ ie2.parent = none ∧
      ie2.translation = worldPos wC1 ieC1 ∧
      worldPos (systemGrabToggle [] true wC1).1 ie2 = worldPos wC1 ieC1) ∧
    (systemGrabToggle [] true wC1).1.find aC1.eid = some (dropHoldingUpdate aC1) ∧
    (∀ j, j ≠ 0 → j ≠ aC1.eid → (systemGrabToggle [] true wC1).1.find j = wC1.find j) :=
  c7_drop_in_place [] wC1 aC1 ieC1 0 rfl rfl rfl rfl rfl (by decide)

/-! ### C8: two-grab round trip through the closed-empty state -/

/-- Claim C8: an Active CanHold entity with no Holding component and no Item
in its overlap set moves to `Holding(None)` on the first Grab edge, emitting
`GrabEmpty`, and a second Grab edge removes the Holding component again,
emitting nothing — the round trip NoHolding → HoldingNone → NoHolding. -/
theorem c8_grab_roundtrip (ov ov2 : List (Nat × Nat)) (w : World) (a : Entity)
    (hA : getSingleActive w = some a)
    (hAF : w.find a.eid = some a)
    (hH : a.holding = none)
    (hNI : firstItem w ov a.eid = none) :
    (systemGrabToggle ov true w).2 = [GameEvent.GrabEmpty] ∧
    (systemGrabToggle ov true w).1.find a.eid = some (setHoldingUpdate none a) ∧
    (systemGrabToggle ov2 true (systemGrabToggle ov true w).1).2 = [] ∧
    (∃ ae, (systemGrabToggle ov2 true (systemGrabToggle ov true w).1).1.find a.eid
      = some ae ∧ ae.holding = none) := by
  have hstep : systemGrabToggle ov true w
      = (w.update a.eid (setHoldingUpdate none), [GameEvent.GrabEmpty]) := by
    simp only [systemGrabToggle, if_true, hA, hH, hNI]
  have hfind1 : (w.update a.eid (setHoldingUpdate none)).find a.eid
      = some (setHoldingUpdate none a) :=
    World.find_update_self _ (setHoldingUpdate_eid none) hAF
  have hA2 : getSingleActive (w.update a.eid (setHoldingUpdate none))
      = some (setHoldingUpdate none a) := by
    rw [getSingleActive_update w a.eid (setHoldingUpdate none) (fun e => ⟨rfl, rfl, rfl⟩), hA]
    simp
  have hstep2 : systemGrabToggle ov2 true (w.update a.eid (setHoldingUpdate none))
      = ((w.update a.eid (setHoldingUpdate none)).update a.eid dropHoldingUpdate, []) := by
    simp only [systemGrabToggle, if_true, hA2, setHoldingUpdate]
  rw [hstep]
  refine ⟨rfl, hfind1, ?_, ?_⟩
  · rw [hstep2]
  · rw [hstep2]
    exact ⟨dropHoldingUpdate (setHoldingUpdate none a),
      World.find_update_self _ dropHoldingUpdate_eid hfind1, rfl⟩

/-- Witness for C8 at the single-hand world `wC8`. -/
theorem c8_grab_roundtrip_witness :
    (systemGrabToggle [] true wC8).2 = [GameEvent.GrabEmpty] ∧
    (systemGrabToggle [] true wC8).1.find aC8.eid = some (setHoldingUpdate none aC8) ∧
    (systemGrabToggle [] true (systemGrabToggle [] true wC8).1).2 = [] ∧
    (∃ ae, (systemGrabToggle [] true (systemGrabToggle [] true wC8).1).1.find aC8.eid
      = some ae ∧ ae.holding = none) :=
  c8_grab_roundtrip [] [] wC8 aC8 rfl rfl rfl rfl

/-! ### C9: violated preconditions are silent no-ops, not assertions -/

/-- Amended C9: when the number of Active CanHold entities bearing a Speed is
not exactly one (`get_single` fails), the grab state machine returns without
changing the world and without emitting events — it silently no-ops; the
source contains no assertion on this path. -/
theorem c9_silent_noop (ov : List (Nat × Nat)) (edge : Bool) (w : World)
    (h : getSingleActive w = none) :
    systemGrabToggle ov edge w = (w, []) := by
  cases edge with
  | false => rfl
  | true => simp only [systemGrabToggle, if_true, h]

/-- Witness for the amended C9 at a world with two Active entities. -/
theorem c9_silent_noop_witness :
    systemGrabToggle [(0, 1)] true wTwoActive = (wTwoActive, []) :=
  c9_silent_noop [(0, 1)] true wTwoActive rfl

/-- Counterexample to C9 as stated: `wTwoActive` has two Active CanHold
entities, a violated precondition, and the grab state machine silently
no-ops on it (world unchanged, no event, no failure). -/
theorem c9_cex_no_assertion :
    (wTwoActive.entities.filter (fun e => e.active)).length = 2 ∧
    systemGrabToggle [(0, 1)] true wTwoActive = (wTwoActive, []) :=
  ⟨rfl, rfl⟩

/-! ### C3: wrap behavior of the progress integrator -/

/-- Lookup after the progress integrator. -/
theorem find_systemProgress (dt : ℚ) (w : World) (i : Nat) (e : Entity)
    (hF : w.find i = some e) :
    (systemProgress dt w).find i = some (progressEntity dt e) := by
  unfold systemProgress
  rw [World.find_mapEntities _ _ (progressEntity_eid dt), hF]
  rfl

/-- Amended C3: after the integrator, an updated value strictly greater than
`1` is wrapped to `p - trunc p`, which lies in `[0,1)`; an updated value of at
most `1` — including exactly `1` and every negative value — is left unchanged
(not wrapped into `[0,1)`); values are never clamped. -/
theorem c3_wrap_only_above_one (dt : ℚ) (w : World) (i : Nat) (e : Entity) (p s : ℚ)
    (hF : w.find i = some e) (hAct : e.active = true)
    (hP : e.progress = some p) (hS : e.speed = some s) :
    (1 < p + progressDelta dt e.holding s →
      ∃ e2, (systemProgress dt w).find i = some e2 ∧
        e2.progress = some ((p + progressDelta dt e.holding s) -
          qtrunc (p + progressDelta dt e.holding s)) ∧
        0 ≤ (p + progressDelta dt e.holding s) -
          qtrunc (p + progressDelta dt e.holding s) ∧
        (p + progressDelta dt e.holding s) -
          qtrunc (p + progressDelta dt e.holding s) < 1) ∧
    (p + progressDelta dt e.holding s ≤ 1 →
      ∃ e2, (systemProgress dt w).find i = some e2 ∧
        e2.progress = some (p + progressDelta dt e.holding s)) := by
  have hfind := find_systemProgress dt w i e hF
  have hpe : (progressEntity dt e).progress
      = some (progressWrap (p + progressDelta dt e.holding s)) := by
    unfold progressEntity
    rw [hAct]
    simp only [if_true, hP, hS]
  constructor
  · intro hgt
    refine ⟨progressEntity dt e, hfind, ?_, ?_, ?_⟩
    · rw [hpe]
      unfold progressWrap
      rw [if_pos hgt]
    · have hq : qtrunc (p + progressDelta dt e.holding s)
          = ((⌊p + progressDelta dt e.holding s⌋ : ℤ) : ℚ) := by
        unfold qtrunc
        rw [if_neg (by push_neg; linarith)]
      rw [hq, Int.self_sub_floor]
      exact Int.fract_nonneg _
    · have hq : qtrunc (p + progressDelta dt e.holding s)
          = ((⌊p + progressDelta dt e.holding s⌋ : ℤ) : ℚ) := by
        unfold qtrunc
        rw [if_neg (by push_neg; linarith)]
      rw [hq, Int.self_sub_floor]
      exact Int.fract_lt_one _
  · intro hle
    refine ⟨progressEntity dt e, hfind, ?_⟩
    rw [hpe]
    unfold progressWrap
    rw [if_neg (not_lt.mpr hle)]

/-- Witness for the amended C3 at the hand-over world `wC1`. -/
theorem c3_wrap_only_above_one_witness :
    (1 < (1 : ℚ) / 2 + progressDelta (1 / 2) aC1.holding (1 / 2) →
      ∃ e2, (systemProgress (1 / 2) wC1).find 2 = some e2 ∧
        e2.progress = some (((1 : ℚ) / 2 + progressDelta (1 / 2) aC1.holding (1 / 2)) -
          qtrunc ((1 : ℚ) / 2 + progressDelta (1 / 2) aC1.holding (1 / 2))) ∧
        0 ≤ ((1 : ℚ) / 2 + progressDelta (1 / 2) aC1.holding (1 / 2)) -
          qtrunc ((1 : ℚ) / 2 + progressDelta (1 / 2) aC1.holding (1 / 2)) ∧
        ((1 : ℚ) / 2 + progressDelta (1 / 2) aC1.holding (1 / 2)) -
          qtrunc ((1 : ℚ) / 2 + progressDelta (1 / 2) aC1.holding (1 / 2)) < 1) ∧
    ((1 : ℚ) / 2 + progressDelta (1 / 2) aC1.holding (1 / 2) ≤ 1 →
      ∃ e2, (systemProgress (1 / 2) wC1).find 2 = some e2 ∧
        e2.progress = some ((1 : ℚ) / 2 + progressDelta (1 / 2) aC1.holding (1 / 2))) :=
  c3_wrap_only_above_one (1 / 2) wC1 2 aC1 (1 / 2) (1 / 2) rfl rfl rfl rfl

/-- Counterexample to C3 as stated: with a negative Speed the integrator
leaves a negative progress value unwrapped (`0 - 1/2·1 · ... = -1/2 ∉ [0,1)`),
and a value landing exactly on `1` stays at `1 ∉ [0,1)` (the source wraps
only on `progress > 1`). -/
theorem c3_cex_progress_leaves_range :
    ((systemProgress (1 / 2) wNegSpeed).find 0).map (fun e => e.progress)
      = some (some (-(1 / 2))) ∧
    ¬(0 ≤ (-(1 / 2) : ℚ)) ∧
    ((systemProgress (1 / 2) wOneExactly).find 0).map (fun e => e.progress)
      = some (some 1) ∧
    ¬((1 : ℚ) < 1) := by
  refine ⟨?_, by norm_num, ?_, by norm_num⟩ <;> with_unfolding_all decide

/-! ### C5: full rate when carrying, half rate with sign when empty -/

/-- Claim C5: an Active entity with Speed `s` and Progress `p` advances by
`s · dt` when it bears `Holding(Some _)` and by `0.5 · signum(s) · dt`
otherwise (no Holding, or `Holding(None)`); after a Grab that transitions to
`Holding(Some)`, the next integrator run advances at the full rate `s · dt`
again.  (The no-wrap bounds keep the statements about the un-wrapped sums.) -/
theorem c5_progress_rates (dt : ℚ) (w : World) (i : Nat) (e : Entity) (p s : ℚ)
    (hF : w.find i = some e) (hAct : e.active = true)
    (hP : e.progress = some p) (hS : e.speed = some s) :
    (∀ j, e.holding = some (some j) → p + dt * s ≤ 1 →
      ∃ e2, (systemProgress dt w).find i = some e2 ∧
        e2.progress = some (p + dt * s)) ∧
    ((e.holding = none ∨ e.holding = some none) →
      p + dt * (1 / 2) * fsign s ≤ 1 →
      ∃ e2, (systemProgress dt w).find i = some e2 ∧
        e2.progress = some (p + dt * (1 / 2) * fsign s)) ∧
    (∀ ov w2 a2 it ite p2 s2, getSingleActive w2 = some a2 →
      w2.find a2.eid = some a2 → a2.active = true → a2.holding = none →
      firstItem w2 ov a2.eid = some it → w2.find it = some ite → it ≠ a2.eid →
      a2.progress = some p2 → a2.speed = some s2 → p2 + dt * s2 ≤ 1 →
      ∃ e2, (systemProgress dt (systemGrabToggle ov true w2).1).find a2.eid = some e2 ∧
        e2.progress = some (p2 + dt * s2)) := by
  refine ⟨?_, ?_, ?_⟩
  · intro j hj hle
    refine ⟨progressEntity dt e, find_systemProgress dt w i e hF, ?_⟩
    unfold progressEntity
    rw [hAct]
    simp only [if_true, hP, hS, hj]
    unfold progressDelta progressWrap
    rw [if_neg (not_lt.mpr hle)]
  · intro hj hle
    refine ⟨progressEntity dt e, find_systemProgress dt w i e hF, ?_⟩
    unfold progressEntity
    rw [hAct]
    simp only [if_true, hP, hS]
    rcases hj with hj | hj <;>
      · rw [hj]
        unfold progressDelta progressWrap
        rw [if_neg (not_lt.mpr hle)]
  · intro ov w2 a2 it ite p2 s2 hA2 hAF2 hAct2 hH2 hIt hIte hne hP2 hS2 hle
    have hgrab : (systemGrabToggle ov true w2).1
        = (setParentInPlace w2 it a2.eid).update a2.eid (setHoldingUpdate (some it)) := by
      simp only [systemGrabToggle, if_true, hA2, hH2, hIt]
    have hsp : setParentInPlace w2 it a2.eid
        = w2.update it (reparentUpdate (some a2.eid)
            (worldPos w2 ite - worldPos w2 a2)) := by
      simp only [setParentInPlace, hIte, hAF2]
    have hfindA : ((setParentInPlace w2 it a2.eid).update a2.eid
        (setHoldingUpdate (some it))).find a2.eid
        = some (setHoldingUpdate (some it) a2) := by
      rw [hsp]
      refine World.find_update_self _ (setHoldingUpdate_eid _) ?_
      rw [World.find_update_ne it _ (reparentUpdate_eid _ _) (Ne.symm hne), hAF2]
    rw [hgrab]
    refine ⟨progressEntity dt (setHoldingUpdate (some it) a2),
      find_systemProgress dt _ a2.eid _ hfindA, ?_⟩
    unfold progressEntity setHoldingUpdate
    simp only [hAct2, if_true, hP2, hS2]
    unfold progressDelta progressWrap
    rw [if_neg (not_lt.mpr hle)]

/-- Witness for C5 at the hand-over world `wC1` (carrying hand at progress
`1/2`, speed `1/2`). -/
theorem c5_progress_rates_witness :
    (∀ j, aC1.holding = some (some j) → (1 : ℚ) / 2 + (1 / 2) * (1 / 2) ≤ 1 →
      ∃ e2, (systemProgress (1 / 2) wC1).find 2 = some e2 ∧
        e2.progress = some ((1 : ℚ) / 2 + (1 / 2) * (1 / 2))) ∧
    ((aC1.holding = none ∨ aC1.holding = some none) →
      (1 : ℚ) / 2 + (1 / 2) * (1 / 2) * fsign (1 / 2) ≤ 1 →
      ∃ e2, (systemProgress (1 / 2) wC1).find 2 = some e2 ∧
        e2.progress = some ((1 : ℚ) / 2 + (1 / 2) * (1 / 2) * fsign (1 / 2))) ∧
    (∀ ov w2 a2 it ite p2 s2, getSingleActive w2 = some a2 →
      w2.find a2.eid = some a2 → a2.active = true → a2.holding = none →
      firstItem w2 ov a2.eid = some it → w2.find it = some ite → it ≠ a2.eid →
      a2.progress = some p2 → a2.speed = some s2 → p2 + (1 / 2) * s2 ≤ 1 →
      ∃ e2, (systemProgress (1 / 2) (systemGrabToggle ov true w2).1).find a2.eid
        = some e2 ∧ e2.progress = some (p2 + (1 / 2) * s2)) :=
  c5_progress_rates (1 / 2) wC1 2 aC1 (1 / 2) (1 / 2) rfl rfl rfl rfl

/-! ### C6 and C10: the Finished phase and what still runs in it -/

/-- `lerpItemUpdate` preserves the entity id. -/
theorem lerpItemUpdate_eid : ∀ e, (lerpItemUpdate e).eid = e.eid := by
  intro e
  unfold lerpItemUpdate
  split <;> rfl

/-- `lerpItemUpdate` touches only the translation, and only of an
`Item`-bearing entity. -/
theorem lerpItemUpdate_fields (e : Entity) :
    (lerpItemUpdate e).progress = e.progress ∧ (lerpItemUpdate e).holding = e.holding ∧
    (lerpItemUpdate e).active = e.active ∧ (lerpItemUpdate e).speed = e.speed ∧
    (lerpItemUpdate e).parent = e.parent ∧
    (e.item = false → (lerpItemUpdate e).translation = e.translation) := by
  unfold lerpItemUpdate
  by_cases h : e.item <;> simp [h]

/-- The settling system never changes the phase. -/
theorem systemLerpItem_phase (w : World) : (systemLerpItem w).phase = w.phase := by
  unfold systemLerpItem
  cases getSingleHolding w with
  | none => rfl
  | some h =>
    cases hh : h.holding with
    | none => simp only [hh]
    | some v =>
      cases v with
      | none => simp only [hh]
      | some item =>
        simp only [hh]
        rfl

/-- The settling system preserves progress, holding, active, speed and parent
of every entity, and the translation of every non-Item entity. -/
theorem systemLerpItem_preserves (w : World) (j : Nat) (e2 : Entity)
    (hF : w.find j = some e2) :
    ∃ e3, (systemLerpItem w).find j = some e3 ∧
      e3.progress = e2.progress ∧ e3.holding = e2.holding ∧
      e3.active = e2.active ∧ e3.speed = e2.speed ∧ e3.parent = e2.parent ∧
      (e2.item = false → e3.translation = e2.translation) := by
  cases hg : getSingleHolding w with
  | none =>
    have heq : systemLerpItem w = w := by simp only [systemLerpItem, hg]
    rw [heq]
    exact ⟨e2, hF, rfl, rfl, rfl, rfl, rfl, fun _ => rfl⟩
  | some h =>
    cases hh : h.holding with
    | none =>
      have heq : systemLerpItem w = w := by simp only [systemLerpItem, hg, hh]
      rw [heq]
      exact ⟨e2, hF, rfl, rfl, rfl, rfl, rfl, fun _ => rfl⟩
    | some v =>
      cases v with
      | none =>
        have heq : systemLerpItem w = w := by simp only [systemLerpItem, hg, hh]
        rw [heq]
        exact ⟨e2, hF, rfl, rfl, rfl, rfl, rfl, fun _ => rfl⟩
      | some item =>
        have heq : systemLerpItem w = w.update item lerpItemUpdate := by
          simp only [systemLerpItem, hg, hh]
        rw [heq]
        by_cases hj : j = item
        · subst hj
          refine ⟨lerpItemUpdate e2, World.find_update_self _ lerpItemUpdate_eid hF, ?_⟩
          have hf := lerpItemUpdate_fields e2
          exact ⟨hf.1, hf.2.1, hf.2.2.1, hf.2.2.2.1, hf.2.2.2.2.1, hf.2.2.2.2.2⟩
        · refine ⟨e2, ?_, rfl, rfl, rfl, rfl, rfl, fun _ => rfl⟩
          rw [World.find_update_ne item _ lerpItemUpdate_eid hj, hF]

/-- Claim C6: when a Grab hand-over makes an entity bearing Finish the new
Active entity, the tick ends in phase `Finished`; and in the `Finished` phase
a tick runs only the ungated settling system — progress, holding, active,
speed and parent of every entity are unchanged, no event is emitted, and no
Hand (non-Item) translation is recomputed. -/
theorem c6_finish_freeze (off : ℚ → ℚ → ℚ × ℚ) (inp : TickInput) (w : World)
    (a o ie : Entity) (i : Nat)
    (hPh : w.phase = Phase.playing)
    (hE : inp.grabEdge = true)
    (hA : getSingleActive w = some a)
    (hAF : w.find a.eid = some a)
    (hH : a.holding = some (some i))
    (hR : firstReceiver w (systemCheckOverlap w) a.eid = some o)
    (hO : w.find o.eid = some o) (hOF : o.finish = true) (hONA : o.active = false)
    (hI : w.find i = some ie)
    (hOA : o.eid ≠ a.eid) (hIA : i ≠ a.eid) (hIneO : i ≠ o.eid) :
    (tick off inp w).1.phase = Phase.finished ∧
    (∀ (off2 : ℚ → ℚ → ℚ × ℚ) (inp2 : TickInput) (w2 : World),
      w2.phase = Phase.finished →
      tick off2 inp2 w2 = (systemLerpItem w2, []) ∧
      (tick off2 inp2 w2).1.phase = Phase.finished ∧
      (∀ j e2, w2.find j = some e2 →
        ∃ e3, (tick off2 inp2 w2).1.find j = some e3 ∧
          e3.progress = e2.progress ∧ e3.holding = e2.holding ∧
          e3.active = e2.active ∧ e3.speed = e2.speed ∧ e3.parent = e2.parent ∧
          (e2.item = false → e3.translation = e2.translation))) := by
  constructor
  · have hre := recvUpdate_eid i o.speed (a.speed.getD 0)
    have h1 : (w.update o.eid (recvUpdate i o.speed (a.speed.getD 0))).find i
        = some ie := by
      rw [World.find_update_ne o.eid _ hre hIneO, hI]
    have h2 : (w.update o.eid (recvUpdate i o.speed (a.speed.getD 0))).find o.eid
        = some (recvUpdate i o.speed (a.speed.getD 0) o) :=
      World.find_update_self _ hre hO
    have hgrab : systemGrabToggle (systemCheckOverlap w) true w
        = (((w.update o.eid (recvUpdate i o.speed (a.speed.getD 0))).update i
              (reparentUpdate (some o.eid)
                (worldPos (w.update o.eid (recvUpdate i o.speed (a.speed.getD 0))) ie -
                  worldPos (w.update o.eid (recvUpdate i o.speed (a.speed.getD 0)))
                    (recvUpdate i o.speed (a.speed.getD 0) o)))).update
              a.eid deactivateUpdate,
           [GameEvent.HandOver]) := by
      simp only [systemGrabToggle, if_true, hA, hH, hR, setParentInPlace, h1, h2]
    have hm0 : o ∈ w.entities := World.mem_of_find hO
    have hm1 := World.mem_update_self hm0 (recvUpdate i o.speed (a.speed.getD 0))
    have hm2 := World.mem_update_of_ne hm1 i
      (reparentUpdate (some o.eid)
        (worldPos (w.update o.eid (recvUpdate i o.speed (a.speed.getD 0))) ie -
          worldPos (w.update o.eid (recvUpdate i o.speed (a.speed.getD 0)))
            (recvUpdate i o.speed (a.speed.getD 0) o)))
      (by rw [hre]; exact Ne.symm hIneO)
    have hm3 := World.mem_update_of_ne hm2 a.eid deactivateUpdate
      (by rw [hre]; exact hOA)
    have hany : ((((w.update o.eid (recvUpdate i o.speed (a.speed.getD 0))).update i
          (reparentUpdate (some o.eid)
            (worldPos (w.update o.eid (recvUpdate i o.speed (a.speed.getD 0))) ie -
              worldPos (w.update o.eid (recvUpdate i o.speed (a.speed.getD 0)))
                (recvUpdate i o.speed (a.speed.getD 0) o)))).update
          a.eid deactivateUpdate).entities.any
        (fun e => e.finish && e.active && !(wasActive w e.eid))) = true := by
      refine List.any_eq_true.mpr ⟨recvUpdate i o.speed (a.speed.getD 0) o, hm3, ?_⟩
      have h5 : (recvUpdate i o.speed (a.speed.getD 0) o).finish = o.finish := rfl
      have h6 : (recvUpdate i o.speed (a.speed.getD 0) o).active = true := rfl
      rw [h5, h6, hOF, hre]
      simp [wasActive, hO, hONA]
    simp only [tick, hPh, hE, hgrab]
    simp [onFinishPhase, hany]
  · intro off2 inp2 w2 hPh2
    refine ⟨by simp only [tick, hPh2], ?_, ?_⟩
    · simp only [tick, hPh2]
      rw [systemLerpItem_phase]
      exact hPh2
    · intro j e2 hje
      have hp := systemLerpItem_preserves w2 j e2 hje
      simpa only [tick, hPh2] using hp

/-- Witness for C6: a tick of the finish-transfer world `wC6` ends in the
`Finished` phase, and finished-phase ticks freeze the kernel. -/
theorem c6_finish_freeze_witness :
    (tick offHalf ⟨1 / 2, true⟩ wC6).1.phase = Phase.finished ∧
    (∀ (off2 : ℚ → ℚ → ℚ × ℚ) (inp2 : TickInput) (w2 : World),
      w2.phase = Phase.finished →
      tick off2 inp2 w2 = (systemLerpItem w2, []) ∧
      (tick off2 inp2 w2).1.phase = Phase.finished ∧
      (∀ j e2, w2.find j = some e2 →
        ∃ e3, (tick off2 inp2 w2).1.find j = some e3 ∧
          e3.progress = e2.progress ∧ e3.holding = e2.holding ∧
          e3.active = e2.active ∧ e3.speed = e2.speed ∧ e3.parent = e2.parent ∧
          (e2.item = false → e3.translation = e2.translation))) :=
  c6_finish_freeze offHalf ⟨1 / 2, true⟩ wC6 aC6 finC6 ieC6 0 rfl rfl rfl rfl rfl
    (by with_unfolding_all decide) rfl rfl rfl rfl (by decide) (by decide) (by decide)

/-- Claim C10: the item-settling interpolation is not gated on the Playing
phase — a finished-phase tick is exactly the settling system with no events;
when the unique Holding is `Holding(Some(item))` and the item bears `Item`,
its local `x`,`y` move toward the carrier origin by lerp factor `0.03` while
`z` is preserved, and no other entity's translation changes. -/
theorem c10_lerp_after_finish (off : ℚ → ℚ → ℚ × ℚ) (inp : TickInput) (w : World)
    (h : Entity) (item : Nat) (ie : Entity)
    (hPh : w.phase = Phase.finished)
    (hGH : getSingleHolding w = some h)
    (hHH : h.holding = some (some item))
    (hIe : w.find item = some ie) (hIt : ie.item = true) :
    tick off inp w = (systemLerpItem w, []) ∧
    (systemLerpItem w).find item = some (lerpItemUpdate ie) ∧
    (lerpItemUpdate ie).translation =
      (lerpQ ie.translation.1 0 (3 / 100), lerpQ ie.translation.2.1 0 (3 / 100),
       lerpQ ie.translation.2.2 ie.translation.2.2 (3 / 100)) ∧
    lerpQ ie.translation.2.2 ie.translation.2.2 (3 / 100) = ie.translation.2.2 ∧
    (∀ j, j ≠ item → (systemLerpItem w).find j = w.find j) := by
  have heq : systemLerpItem w = w.update item lerpItemUpdate := by
    simp only [systemLerpItem, hGH, hHH]
  refine ⟨by simp only [tick, hPh], ?_, ?_, ?_, ?_⟩
  · rw [heq]
    exact World.find_update_self _ lerpItemUpdate_eid hIe
  · unfold lerpItemUpdate
    rw [hIt]
    simp
  · unfold lerpQ
    ring
  · intro j hj
    rw [heq, World.find_update_ne item _ lerpItemUpdate_eid hj]

/-- Witness for C10 at the finished-phase world `wC10`. -/
theorem c10_lerp_after_finish_witness :
    tick offHalf ⟨1 / 2, false⟩ wC10 = (systemLerpItem wC10, []) ∧
    (systemLerpItem wC10).find 0
      = some (lerpItemUpdate
        { eid := 0, item := true, collision := some 40, parent := some 9,
          translation := (40, 20, -446) }) ∧
    (lerpItemUpdate
        { eid := 0, item := true, collision := some 40, parent := some 9,
          translation := (40, 20, -446) }).translation =
      (lerpQ 40 0 (3 / 100), lerpQ 20 0 (3 / 100), lerpQ (-446) (-446) (3 / 100)) ∧
    lerpQ (-446 : ℚ) (-446) (3 / 100) = -446 ∧
    (∀ j, j ≠ 0 → (systemLerpItem wC10).find j = wC10.find j) :=
  c10_lerp_after_finish offHalf ⟨1 / 2, false⟩ wC10
    { finC6 with holding := some (some 0), active := true } 0
    { eid := 0, item := true, collision := some 40, parent := some 9,
      translation := (40, 20, -446) }
    rfl rfl rfl rfl rfl

/-! ### C4: the grab at t = 0 in the reference placement -/

/-- Counterexample to C4 as stated: at progress `0.5` the placement resolver
puts the active hand at local `(cos π, sin π)·192 = (-192, 0)` — not at
`(0, 192)` — which is within grab range of the baton at `(-224, 0)`, so the
first Grab emits `Grab` (not `GrabEmpty`) and closes the hand around the
baton. -/
theorem c4_cex_grab_hits_baton :
    handOffset (1 / 2) 192 = ((-192 : ℝ), 0) ∧
    (systemGrabToggle (systemCheckOverlap placedWorld) true placedWorld).2
      ≠ [GameEvent.GrabEmpty] ∧
    ((systemGrabToggle (systemCheckOverlap placedWorld) true placedWorld).1.find 2).map
      (fun e => e.holding) = some (some (some 0)) := by
  refine ⟨?_, ?_, ?_⟩
  · unfold handOffset
    have hpi : (1 / 2 : ℝ) * 2 * Real.pi = Real.pi := by ring
    rw [hpi, Real.cos_pi, Real.sin_pi]
    norm_num
  · with_unfolding_all decide
  · with_unfolding_all decide

/-- Amended C4: in the reference placement the active hand at progress `0.5`
sits at local offset `(-192, 0)` (world `(-192, 0)`), within grab range of
the baton at `(-224, 0)` (gap `32 ≤ 64 + 40`), so issuing Grab there results
in the hand bearing `Holding(Some(baton))`, the baton reparented to the hand,
and a `Grab` event. -/
theorem c4_amended_pickup_at_start :
    handOffset (1 / 2) 192 = ((-192 : ℝ), 0) ∧
    (placedWorld.find 2).map (fun e => e.translation) = some (-192, 0, 2) ∧
    (initialWorld.find 0).map (fun e => e.translation) = some (-224, 0, 448) ∧
    distSq2 (-192, 0, 2) (-224, 0, 448) ≤ ((64 : ℚ) + 40) ^ 2 ∧
    systemCheckOverlap placedWorld = [(0, 2), (2, 0)] ∧
    (systemGrabToggle (systemCheckOverlap placedWorld) true placedWorld).2
      = [GameEvent.Grab] ∧
    ((systemGrabToggle (systemCheckOverlap placedWorld) true placedWorld).1.find 2).map
      (fun e => e.holding) = some (some (some 0)) ∧
    ((systemGrabToggle (systemCheckOverlap placedWorld) true placedWorld).1.find 0).map
      (fun e => e.parent) = some (some 2) := by
  refine ⟨?_, ?_, ?_, ?_, ?_, ?_, ?_, ?_⟩
  · unfold handOffset
    have hpi : (1 / 2 : ℝ) * 2 * Real.pi = Real.pi := by ring
    rw [hpi, Real.cos_pi, Real.sin_pi]
    norm_num
  all_goals with_unfolding_all decide

/-! ### C2: speed retargeting on hand-over, and the Finish's Speed -/

/-- Amended C2: on every hand-over to receiver `o`, if `o` bears a Speed
`s_O` it is retargeted to `|s_O| · -signum(s_A)`, and if `o` bears no Speed
none is inserted; however the Finish entity of the reference placement does
bear a Speed component, `Speed(0.)`, so a hand-over to Finish retargets it to
`|0| · -signum(s_A) = 0` rather than leaving Speed unset. -/
theorem c2_speed_retarget (ov : List (Nat × Nat)) (w : World) (a o : Entity)
    (i : Nat) (s : ℚ)
    (hA : getSingleActive w = some a)
    (hS : a.speed = some s)
    (hH : a.holding = some (some i))
    (hR : firstReceiver w ov a.eid = some o)
    (hO : w.find o.eid = some o)
    (hIe : ∃ ie, w.find i = some ie)
    (hOA : o.eid ≠ a.eid) (hIneO : i ≠ o.eid) :
    (∀ so, o.speed = some so →
      ∃ oe, (systemGrabToggle ov true w).1.find o.eid = some oe ∧
        oe.speed = some (abs so * -(fsign s))) ∧
    (o.speed = none →
      ∃ oe, (systemGrabToggle ov true w).1.find o.eid = some oe ∧
        oe.speed = none) ∧
    (initialWorld.find 9).map (fun e => (e.finish, e.canHold, e.speed))
      = some (true, true, some 0) := by
  obtain ⟨ie, hI⟩ := hIe
  have hre := recvUpdate_eid i o.speed (a.speed.getD 0)
  have h1 : (w.update o.eid (recvUpdate i o.speed (a.speed.getD 0))).find i
      = some ie := by
    rw [World.find_update_ne o.eid _ hre hIneO, hI]
  have h2 : (w.update o.eid (recvUpdate i o.speed (a.speed.getD 0))).find o.eid
      = some (recvUpdate i o.speed (a.speed.getD 0) o) :=
    World.find_update_self _ hre hO
  have hfind : (systemGrabToggle ov true w).1.find o.eid
      = some (recvUpdate i o.speed (a.speed.getD 0) o) := by
    simp only [systemGrabToggle, if_true, hA, hH, hR, setParentInPlace, h1, h2]
    rw [World.find_update_ne a.eid _ deactivateUpdate_eid hOA,
      World.find_update_ne i _ (reparentUpdate_eid _ _) (Ne.symm hIneO), h2]
  refine ⟨?_, ?_, rfl⟩
  · intro so hso
    refine ⟨recvUpdate i o.speed (a.speed.getD 0) o, hfind, ?_⟩
    unfold recvUpdate
    rw [hso, hS]
    rfl
  · intro hnone
    refine ⟨recvUpdate i o.speed (a.speed.getD 0) o, hfind, ?_⟩
    unfold recvUpdate
    rw [hnone]

/-- Witness for the amended C2 at the hand-over world `wC1` (receiver speed
`1`, giver speed `1/2`). -/
theorem c2_speed_retarget_witness :
    (∀ so, oC1.speed = some so →
      ∃ oe, (systemGrabToggle ovC1 true wC1).1.find oC1.eid = some oe ∧
        oe.speed = some (abs so * -(fsign (1 / 2)))) ∧
    (oC1.speed = none →
      ∃ oe, (systemGrabToggle ovC1 true wC1).1.find oC1.eid = some oe ∧
        oe.speed = none) ∧
    (initialWorld.find 9).map (fun e => (e.finish, e.canHold, e.speed))
      = some (true, true, some 0) :=
  c2_speed_retarget ovC1 wC1 aC1 oC1 0 (1 / 2) rfl rfl rfl rfl rfl ⟨ieC1, rfl⟩
    (by decide) (by decide)

/-- Counterexample to C2 as stated: the Finish entity spawned by
`system_setup_entities` bears `Speed(0.)` — it is not an entity without a
Speed component. -/
theorem c2_cex_finish_bears_speed :
    (initialWorld.find 9).map (fun e => (e.finish, e.canHold, e.speed))
      = some (true, true, some 0) ∧
    (initialWorld.find 9).map (fun e => e.speed.isSome) = some true :=
  ⟨rfl, rfl⟩

end Jam
